import Mathlib

/-!
Shallow embedding of `GraphCacheServer` (PaGraph, `storage/storage.py`).

Feature values are modelled as `Int` (the float32 payload is never computed
with, only moved, so any value type with decidable equality is faithful).
A feature matrix is a list of rows; a torch 1-D bool/long tensor indexed by
local node id is modelled as a function `Nat → Bool` / `Nat → Nat`.
Python dicts (`dims`, `gpu_fix_cache`, per-hop frames) are insertion-ordered
association lists over `String` keys.
The host feature store (`graph._node_frame`) is an external collaborator,
modelled as a function from field name and global node id to that node's row.
-/

/-- One feature matrix: a list of per-node rows. -/
abbrev Mat := List (List Int)

/-- A per-hop feature frame / a fetched data dict: field name to matrix. -/
abbrev Frame := List (String × Mat)

/-- The authoritative host-side feature store: field name, global id, row. -/
abbrev Store := String → Nat → List Int

/-- First-match association-list lookup with a default, modelling Python
dict lookup (the lists we build never carry duplicate keys). -/
def lookupD {β : Type} (l : List (String × β)) (k : String) (d : β) : β :=
  match l with
  | [] => d
  | (k', v) :: rest => if k' = k then v else lookupD rest k d

/-- Python dict assignment `d[k] = v`: replace the first binding of `k` in
place, or append a fresh binding at the end. -/
def updateAssoc {β : Type} (l : List (String × β)) (k : String) (v : β) : List (String × β) :=
  match l with
  | [] => [(k, v)]
  | (k', v') :: rest => if k' = k then (k, v) :: rest else (k', v') :: updateAssoc rest k v

/-- Model of `t.size(1)` of a row-list matrix: the width of its first row. -/
def matCols (m : Mat) : Nat := (m.headD []).length

/-- Torch boolean-mask write `flags[nids] = b`. -/
def setFlags (f : Nat → Bool) (nids : List Nat) (b : Bool) : Nat → Bool :=
  fun i => if i ∈ nids then b else f i

/-- Torch scatter `slot[nids] = arange(len(nids))`; for an id occurring in
`nids` the written value is its (first) position, ids outside keep their
old slot.  (Torch leaves duplicate targets unspecified; every caller in the
repository passes duplicate-free id lists.) -/
def scatterArange (slot : Nat → Nat) (nids : List Nat) : Nat → Nat :=
  fun i => if i ∈ nids then nids.indexOf i else slot i

/-- Python slice `xs[:k]` for an arbitrary (possibly negative) `k`. -/
def pySlice {α : Type} (xs : List α) (k : Int) : List α :=
  if 0 ≤ k then xs.take k.toNat
  else xs.take ((xs.length : Int) + k).toNat

/-- Insert an id into a degree-descending list, placing it before the first
entry whose degree it meets or exceeds. -/
def insertDescBy (deg : Nat → Nat) (i : Nat) : List Nat → List Nat
  | [] => [i]
  | j :: rest => if deg j ≤ deg i then i :: j :: rest else j :: insertDescBy deg i rest

/-- Model of `torch.argsort(out_degrees, descending=True)` over local ids
`0..node_num-1`: degree-descending order, ties in ascending id order
(torch fixes no tie order; this is one concrete deterministic choice). -/
def argsortDesc (deg : Nat → Nat) (node_num : Nat) : List Nat :=
  (List.range node_num).foldr (insertDescBy deg) []

/-- Torch boolean-mask read `xs[mask]`: keep the entries at true positions. -/
def maskSelect {α : Type} : List α → List Bool → List α
  | [], _ => []
  | _, [] => []
  | x :: xs, b :: bs => if b then x :: maskSelect xs bs else maskSelect xs bs

/-- Torch boolean-mask write `rows[mask] = vs`: the k-th value of `vs`
replaces the row at the k-th true position of `mask`. -/
def maskAssign {α : Type} : List α → List Bool → List α → List α
  | [], _, _ => []
  | rs, [], _ => rs
  | r :: rs, b :: bs, vs =>
    if b then
      match vs with
      | [] => r :: maskAssign rs bs []
      | v :: vs' => v :: maskAssign rs bs vs'
    else r :: maskAssign rs bs vs

/-- The only failure `cache_fix_data` can raise: the row-count assertion. -/
inductive CacheErr : Type
  | dimensionMismatch
deriving DecidableEq

/-- Mutable state of a `GraphCacheServer` instance (`__init__` fields). -/
structure ServerState where
  node_num : Nat
  nid_map : Nat → Nat
  cpu_flag : Nat → Bool
  gpu_flag : Nat → Bool
  cached_num : Nat
  capability : Int
  full_cached : Bool
  dims : List (String × Nat)
  total_dim : Nat
  gpu_fix_cache : Frame
  localid2cacheid : Nat → Nat

/-- Model of `__init__`: everything host-resident, empty cache, zeroed slot map. -/
def initState (node_num : Nat) (nid_map : Nat → Nat) : ServerState :=
  { node_num := node_num
    nid_map := nid_map
    cpu_flag := fun _ => true
    gpu_flag := fun _ => false
    cached_num := 0
    capability := (node_num : Int)
    full_cached := false
    dims := []
    total_dim := 0
    gpu_fix_cache := []
    localid2cacheid := fun _ => 0 }

/-- A throwaway inhabitant used only to destructure `Except` values in
closed statements. -/
def dfltState : ServerState := initState 0 (fun _ => 0)

/-- Model of `get_feat_from_server`: map local ids to global ids through `nid_map`
and read the requested fields from the host store, row `i` of each field
aligned with `nids[i]`.  (The `to_gpu` flag only picks the device of the
returned tensor and is dropped here.) -/
def get_feat_from_server (s : ServerState) (store : Store) (nids : List Nat)
    (embed_names : List String) : Frame :=
  embed_names.map (fun nm => (nm, nids.map (fun i => store nm (s.nid_map i))))

/-- Model of `init_field`: probe the store at local id 0 and record each field's
per-node width in `dims`, accumulating `total_dim`. -/
def init_field (s : ServerState) (store : Store) (embed_names : List String) : ServerState :=
  let feats := get_feat_from_server s store [0] embed_names
  let r := embed_names.foldl
    (fun acc nm =>
      let d := matCols (lookupD feats nm [])
      (updateAssoc acc.1 nm d, acc.2 + d))
    (s.dims, 0)
  { s with dims := r.1, total_dim := r.2 }

/-- The assert-guarded loop of `cache_fix_data`: per field, check the row
count and write `dims[name]` and `gpu_fix_cache[name]`. -/
def cacheLoop (rows : Nat) :
    List (String × Nat) → Frame → Frame → Except CacheErr (List (String × Nat) × Frame)
  | dims, cache, [] => .ok (dims, cache)
  | dims, cache, (nm, mat) :: rest =>
    if mat.length = rows then
      cacheLoop rows (updateAssoc dims nm (matCols mat)) (updateAssoc cache nm mat) rest
    else .error .dimensionMismatch

/-- Model of `cache_fix_data(nids, data, is_full)`: record slots and `cached_num`,
store every field's buffer (asserting its row count), then flip the
location flags of the cached ids and set `full_cached`. -/
def cache_fix_data (s : ServerState) (nids : List Nat) (data : Frame)
    (is_full : Bool) : Except CacheErr ServerState :=
  let rows := nids.length
  let slot' := scatterArange s.localid2cacheid nids
  match cacheLoop rows s.dims s.gpu_fix_cache data with
  | .error e => .error e
  | .ok (dims', cache') =>
      .ok { s with
        localid2cacheid := slot'
        cached_num := rows
        dims := dims'
        gpu_fix_cache := cache'
        cpu_flag := setFlags s.cpu_flag nids false
        gpu_flag := setFlags s.gpu_flag nids true
        full_cached := is_full }

/-- The headroom left unallocated by `auto_cache` (512 MiB). -/
def headroomBytes : Nat := 512 * 1024 * 1024

/-- Model of `capability = int(available / (total_dim * 4))`: exact division of the
(possibly negative) available byte count, truncated toward zero as Python
`int()` does.  No clamping is performed. -/
def computeCapability (total_mem peak_allocated total_dim : Nat) : Int :=
  Int.tdiv ((total_mem : Int) - (peak_allocated : Int) - (headroomBytes : Int))
    ((total_dim : Int) * 4)

/-- The id list `auto_cache` caches: all ids when the capability strictly
exceeds `node_num`, otherwise the Python slice `sort_nid[:capability]` of
the degree-descending order. -/
def choose_cache_nids (cap : Int) (node_num : Nat) (deg : Nat → Nat) : List Nat :=
  if cap > (node_num : Int) then List.range node_num
  else pySlice (argsortDesc deg node_num) cap

/-- Model of `auto_cache`: recompute the capability from device memory, then either
fully cache (strictly more room than nodes) or cache the top-capability
ids by out-degree, populating via `cache_fix_data`. -/
def auto_cache (s : ServerState) (store : Store) (deg : Nat → Nat)
    (total_mem peak_allocated : Nat) (embed_names : List String) :
    Except CacheErr ServerState :=
  let cap := computeCapability total_mem peak_allocated s.total_dim
  let s1 := { s with capability := cap }
  if cap > (s1.node_num : Int) then
    let full_nids := List.range s1.node_num
    let data_frame := get_feat_from_server s1 store full_nids embed_names
    cache_fix_data s1 full_nids data_frame true
  else
    let sort_nid := argsortDesc deg s1.node_num
    let cache_nid := pySlice sort_nid cap
    let data_frame := get_feat_from_server s1 store cache_nid embed_names
    cache_fix_data s1 cache_nid data_frame false

/-- Read cache row `c` of field `nm`: `gpu_fix_cache[nm][c]`. -/
def cacheRow (s : ServerState) (nm : String) (c : Nat) : List Int :=
  (lookupD s.gpu_fix_cache nm []).getD c []

/-- One hop of the general path of `fetch_data`: partition the requested
ids by location flag, allocate a fresh frame per field, fill the
device-resident rows from the cache through the slot map and the
host-resident rows from the remote store, both through their boolean
masks. -/
def fetch_data_layer (s : ServerState) (store : Store) (tnid : List Nat) : Frame :=
  let gpu_mask := tnid.map s.gpu_flag
  let nids_in_gpu := maskSelect tnid gpu_mask
  let cpu_mask := tnid.map s.cpu_flag
  let nids_in_cpu := maskSelect tnid cpu_mask
  let frame0 : Frame :=
    s.dims.map (fun p => (p.1, tnid.map (fun _ => List.replicate p.2 (0 : Int))))
  let frame1 :=
    if nids_in_gpu.length ≠ 0 then
      frame0.map (fun p =>
        let cacheid := nids_in_gpu.map s.localid2cacheid
        (p.1, maskAssign p.2 gpu_mask (cacheid.map (cacheRow s p.1))))
    else frame0
  let frame2 :=
    if nids_in_cpu.length ≠ 0 then
      let cpu_data_frame := get_feat_from_server s store nids_in_cpu (s.dims.map Prod.fst)
      frame1.map (fun p => (p.1, maskAssign p.2 cpu_mask (lookupD cpu_data_frame p.1 [])))
    else frame1
  frame2

/-- One hop of `fetch_from_cache`: index every cached field's buffer
directly by the requested ids (not through the slot map). -/
def fetch_from_cache_layer (s : ServerState) (tnid : List Nat) : Frame :=
  s.gpu_fix_cache.map (fun p => (p.1, tnid.map (fun t => p.2.getD t [])))

/-- The per-hop frames `fetch_data` writes for the given layer id lists:
the fast path when `full_cached`, the partition-and-merge path otherwise. -/
def fetch_frames (s : ServerState) (store : Store) (layers : List (List Nat)) :
    List Frame :=
  if s.full_cached then layers.map (fetch_from_cache_layer s)
  else layers.map (fetch_data_layer s store)

/-- A DGL nodeflow as `fetch_data` sees it: per-hop parent id lists and
per-hop feature frames (the only part it writes). -/
structure Nodeflow where
  layers : List (List Nat)
  node_frames : List Frame

/-- Model of `fetch_data(nodeflow)` as a state transformer: reads the cache state,
writes only `nodeflow._node_frames[i]` for each hop `i`. -/
def fetch_data (s : ServerState) (store : Store) (nf : Nodeflow) :
    ServerState × Nodeflow :=
  (s, { nf with
        node_frames :=
          fetch_frames s store nf.layers ++ nf.node_frames.drop nf.layers.length })

/-! ### Lemmas about the tensor-operation models -/

theorem maskSelect_map_eq_filter {α : Type} (p : α → Bool) :
    ∀ xs : List α, maskSelect xs (xs.map p) = xs.filter p
  | [] => rfl
  | x :: xs => by
    simp only [List.map_cons, maskSelect, List.filter_cons]
    by_cases h : p x <;> simp [h, maskSelect_map_eq_filter p xs]

theorem maskAssign_length {α : Type} :
    ∀ (rs : List α) (mask : List Bool) (vs : List α),
      (maskAssign rs mask vs).length = rs.length
  | [], _, _ => by simp [maskAssign]
  | _ :: _, [], _ => by simp [maskAssign]
  | r :: rs, b :: bs, vs => by
    simp only [maskAssign]
    by_cases hb : b
    · cases vs with
      | nil => simp [hb, maskAssign_length rs bs]
      | cons v vs' => simp [hb, maskAssign_length rs bs]
    · simp [hb, maskAssign_length rs bs]

theorem maskAssign_getD {α : Type} (p : Nat → Bool) (f : Nat → α) (d : α) :
    ∀ (xs : List Nat) (rs : List α), rs.length = xs.length →
      ∀ j, j < xs.length →
        (maskAssign rs (xs.map p) ((xs.filter p).map f)).getD j d
          = if p (xs.getD j 0) then f (xs.getD j 0) else rs.getD j d
  | [], _, _, j, hj => absurd hj (by simp)
  | x :: xs, [], h, _, _ => by simp at h
  | x :: xs, r :: rs, h, j, hj => by
    simp only [List.length_cons, Nat.add_right_cancel_iff] at h
    simp only [List.map_cons, List.filter_cons]
    by_cases hp : p x
    · simp only [hp, if_pos, List.map_cons, maskAssign]
      cases j with
      | zero => simp [hp]
      | succ j' =>
        simp only [List.getD_cons_succ]
        exact maskAssign_getD p f d xs rs h j' (Nat.lt_of_succ_lt_succ hj)
    · simp only [hp, if_neg, Bool.false_eq_true, not_false_iff, maskAssign]
      cases j with
      | zero => simp [hp]
      | succ j' =>
        simp only [List.getD_cons_succ]
        exact maskAssign_getD p f d xs rs h j' (Nat.lt_of_succ_lt_succ hj)

theorem stage_getD {α : Type} (p : Nat → Bool) (f : Nat → α) (d : α)
    (xs : List Nat) (rs : List α) (h : rs.length = xs.length)
    (j : Nat) (hj : j < xs.length) :
    (if (maskSelect xs (xs.map p)).length ≠ 0
      then maskAssign rs (xs.map p) ((maskSelect xs (xs.map p)).map f) else rs).getD j d
      = if p (xs.getD j 0) then f (xs.getD j 0) else rs.getD j d := by
  rw [maskSelect_map_eq_filter]
  by_cases hg : (xs.filter p).length ≠ 0
  · rw [if_pos hg]
    exact maskAssign_getD p f d xs rs h j hj
  · rw [if_neg hg]
    push_neg at hg
    have hfil : xs.filter p = [] := List.length_eq_zero.mp hg
    have hmem : xs.getD j 0 ∈ xs := by
      rw [List.getD_eq_getElem xs 0 hj]
      exact List.getElem_mem hj
    have hpx : p (xs.getD j 0) = false := by
      have h2 := List.filter_eq_nil.mp hfil _ hmem
      simpa using h2
    rw [hpx]
    simp

theorem stage_length {α : Type} (c : Prop) [Decidable c]
    (rs : List α) (mask : List Bool) (vs : List α) :
    (if c then maskAssign rs mask vs else rs).length = rs.length := by
  by_cases hc : c
  · rw [if_pos hc]; exact maskAssign_length rs mask vs
  · rw [if_neg hc]

theorem getD_map_of_lt {α β : Type} (f : α → β) (xs : List α) (d0 : α) (d : β)
    (j : Nat) (hj : j < xs.length) :
    (xs.map f).getD j d = f (xs.getD j d0) := by
  have hj' : j < (xs.map f).length := by simpa using hj
  rw [List.getD_eq_getElem _ _ hj', List.getD_eq_getElem _ _ hj, List.getElem_map]

/-! ### Association-list (Python dict) lemmas -/

theorem lookupD_map_self {β : Type} (g : String → β) (d : β) (k : String) :
    ∀ names : List String, k ∈ names →
      lookupD (names.map (fun nm => (nm, g nm))) k d = g k
  | [], h => absurd h (List.not_mem_nil k)
  | nm :: rest, h => by
    simp only [List.map_cons, lookupD]
    by_cases he : nm = k
    · subst he; simp
    · have hk : k ∈ rest := by
        cases List.mem_cons.mp h with
        | inl h' => exact absurd h'.symm he
        | inr h' => exact h'
      simp [he, lookupD_map_self g d k rest hk]

theorem updateAssoc_fresh {β : Type} (k : String) (v : β) :
    ∀ l : List (String × β), k ∉ l.map Prod.fst →
      updateAssoc l k v = l ++ [(k, v)]
  | [], _ => rfl
  | (k', v') :: rest, h => by
    have hne : k' ≠ k := by
      intro he
      exact h (by simp [he])
    have hrest : k ∉ rest.map Prod.fst := by
      intro hm
      exact h (by simp [hm])
    simp [updateAssoc, hne, updateAssoc_fresh k v rest hrest]

theorem lookupD_updateAssoc_self {β : Type} (v : β) (d : β) :
    ∀ (l : List (String × β)) (k : String), lookupD (updateAssoc l k v) k d = v
  | [], k => by simp [updateAssoc, lookupD]
  | (k', v') :: rest, k => by
    by_cases he : k' = k
    · simp [updateAssoc, he, lookupD]
    · simp [updateAssoc, he, lookupD, lookupD_updateAssoc_self v d rest k]

theorem lookupD_updateAssoc_ne {β : Type} (v : β) (d : β) :
    ∀ (l : List (String × β)) (k k' : String), k ≠ k' →
      lookupD (updateAssoc l k v) k' d = lookupD l k' d
  | [], k, k', hne => by simp [updateAssoc, lookupD, hne]
  | (k0, v0) :: rest, k, k', hne => by
    by_cases he : k0 = k
    · subst he
      simp [updateAssoc, lookupD, hne]
    · simp [updateAssoc, he, lookupD, lookupD_updateAssoc_ne v d rest k k' hne]

theorem foldl_updateAssoc_passthru {β : Type} (W : String → β) (h : String × β) :
    ∀ (names : List String) (t : List (String × β)), (∀ nm ∈ names, nm ≠ h.1) →
      names.foldl (fun acc nm => updateAssoc acc nm (W nm)) (h :: t)
        = h :: names.foldl (fun acc nm => updateAssoc acc nm (W nm)) t
  | [], t, _ => rfl
  | nm :: rest, t, hne => by
    have h1 : h.1 ≠ nm := fun he => (hne nm (by simp)) he.symm
    have hstep : updateAssoc (h :: t) nm (W nm) = h :: updateAssoc t nm (W nm) := by
      obtain ⟨hk, hv⟩ := h
      simp only [updateAssoc]
      simp at h1
      simp [h1]
    simp only [List.foldl_cons, hstep]
    exact foldl_updateAssoc_passthru W h rest _ (fun x hx => hne x (by simp [hx]))

theorem foldl_updateAssoc_fresh {β : Type} (W : String → β) :
    ∀ (names : List String) (init : List (String × β)),
      names.Nodup → (∀ nm ∈ names, nm ∉ init.map Prod.fst) →
      names.foldl (fun acc nm => updateAssoc acc nm (W nm)) init
        = init ++ names.map (fun nm => (nm, W nm))
  | [], init, _, _ => by simp
  | nm :: rest, init, hnd, hfresh => by
    have hnm : nm ∉ init.map Prod.fst := hfresh nm (by simp)
    have hnd' := (List.nodup_cons.mp hnd).2
    have hnmrest : nm ∉ rest := (List.nodup_cons.mp hnd).1
    have hfresh' : ∀ x ∈ rest, x ∉ (init ++ [(nm, W nm)]).map Prod.fst := by
      intro x hx
      simp only [List.map_append, List.mem_append]
      intro hmem
      cases hmem with
      | inl hmem => exact hfresh x (by simp [hx]) hmem
      | inr hmem =>
        simp at hmem
        exact hnmrest (hmem ▸ hx)
    simp only [List.foldl_cons, updateAssoc_fresh nm (W nm) init hnm]
    rw [foldl_updateAssoc_fresh W rest _ hnd' hfresh']
    simp

theorem foldl_updateAssoc_aligned {β : Type} (W : String → β) :
    ∀ (names : List String) (g : String → β), names.Nodup →
      names.foldl (fun acc nm => updateAssoc acc nm (W nm))
          (names.map (fun nm => (nm, g nm)))
        = names.map (fun nm => (nm, W nm))
  | [], _, _ => rfl
  | nm :: rest, g, hnd => by
    have hnmrest : nm ∉ rest := (List.nodup_cons.mp hnd).1
    have hnd' := (List.nodup_cons.mp hnd).2
    have hstep :
        updateAssoc ((nm, g nm) :: rest.map (fun x => (x, g x))) nm (W nm)
          = (nm, W nm) :: rest.map (fun x => (x, g x)) := by
      simp [updateAssoc]
    simp only [List.map_cons, List.foldl_cons, hstep]
    rw [foldl_updateAssoc_passthru W (nm, W nm) rest _
      (by intro x hx he; apply hnmrest; subst he; exact hx)]
    rw [foldl_updateAssoc_aligned W rest g hnd']

/-! ### Characterizing `cache_fix_data`, `get_feat_from_server`, `init_field` -/

theorem cacheLoop_ok (rows : Nat) :
    ∀ (data : Frame) (dims : List (String × Nat)) (cache : Frame),
      (∀ p ∈ data, p.2.length = rows) →
      cacheLoop rows dims cache data
        = .ok (data.foldl (fun acc p => updateAssoc acc p.1 (matCols p.2)) dims,
               data.foldl (fun acc p => updateAssoc acc p.1 p.2) cache)
  | [], dims, cache, _ => rfl
  | (nm, mat) :: rest, dims, cache, h => by
    have hmat : mat.length = rows := h (nm, mat) (by simp)
    simp only [cacheLoop, hmat, if_pos, List.foldl_cons]
    exact cacheLoop_ok rows rest _ _ (fun p hp => h p (by simp [hp]))

theorem cacheLoop_error_iff (rows : Nat) :
    ∀ (data : Frame) (dims : List (String × Nat)) (cache : Frame),
      cacheLoop rows dims cache data = .error CacheErr.dimensionMismatch
        ↔ ∃ p ∈ data, p.2.length ≠ rows
  | [], dims, cache => by simp [cacheLoop]
  | (nm, mat) :: rest, dims, cache => by
    by_cases hmat : mat.length = rows
    · simp only [cacheLoop, hmat, if_pos]
      rw [cacheLoop_error_iff rows rest _ _]
      constructor
      · rintro ⟨p, hp, hne⟩
        exact ⟨p, by simp [hp], hne⟩
      · rintro ⟨p, hp, hne⟩
        rcases List.mem_cons.mp hp with rfl | hp'
        · exact absurd hmat hne
        · exact ⟨p, hp', hne⟩
    · constructor
      · intro _
        exact ⟨(nm, mat), by simp, hmat⟩
      · intro _
        simp [cacheLoop, hmat]

theorem cache_fix_data_ok (s : ServerState) (nids : List Nat) (data : Frame)
    (full : Bool) (hrows : ∀ p ∈ data, p.2.length = nids.length) :
    cache_fix_data s nids data full = .ok { s with
      localid2cacheid := scatterArange s.localid2cacheid nids
      cached_num := nids.length
      dims := data.foldl (fun acc p => updateAssoc acc p.1 (matCols p.2)) s.dims
      gpu_fix_cache := data.foldl (fun acc p => updateAssoc acc p.1 p.2) s.gpu_fix_cache
      cpu_flag := setFlags s.cpu_flag nids false
      gpu_flag := setFlags s.gpu_flag nids true
      full_cached := full } := by
  simp only [cache_fix_data]
  rw [cacheLoop_ok _ _ _ _ hrows]

theorem get_feat_rows (s : ServerState) (store : Store) (nids : List Nat)
    (names : List String) :
    ∀ p ∈ get_feat_from_server s store nids names, p.2.length = nids.length := by
  intro p hp
  simp only [get_feat_from_server, List.mem_map] at hp
  obtain ⟨nm, _, rfl⟩ := hp
  simp

theorem init_field_fold_fst (w : String → Nat) :
    ∀ (names : List String) (A : List (String × Nat)) (t : Nat),
      (names.foldl (fun acc nm => (updateAssoc acc.1 nm (w nm), acc.2 + w nm)) (A, t)).1
        = names.foldl (fun acc nm => updateAssoc acc nm (w nm)) A
  | [], _, _ => rfl
  | nm :: rest, A, t => by
    simp only [List.foldl_cons]
    exact init_field_fold_fst w rest _ _

theorem init_field_dims (s : ServerState) (store : Store) (names : List String)
    (hnd : names.Nodup) (hd : s.dims = []) :
    (init_field s store names).dims
      = names.map (fun nm => (nm, (store nm (s.nid_map 0)).length)) := by
  unfold init_field
  simp only [hd]
  rw [init_field_fold_fst]
  rw [foldl_updateAssoc_fresh _ names [] hnd (by simp)]
  rw [List.nil_append]
  apply List.map_congr_left
  intro nm hnm
  have hfeat : lookupD (get_feat_from_server s store [0] names) nm []
      = [store nm (s.nid_map 0)] := by
    unfold get_feat_from_server
    exact lookupD_map_self (fun nm => [0].map (fun i => store nm (s.nid_map i))) [] nm names hnm
  rw [hfeat]
  simp [matCols]

theorem init_field_same (s : ServerState) (store : Store) (names : List String) :
    (init_field s store names).node_num = s.node_num ∧
    (init_field s store names).nid_map = s.nid_map ∧
    (init_field s store names).cpu_flag = s.cpu_flag ∧
    (init_field s store names).gpu_flag = s.gpu_flag ∧
    (init_field s store names).gpu_fix_cache = s.gpu_fix_cache ∧
    (init_field s store names).localid2cacheid = s.localid2cacheid ∧
    (init_field s store names).full_cached = s.full_cached := by
  unfold init_field
  exact ⟨rfl, rfl, rfl, rfl, rfl, rfl, rfl⟩

/-! ### The general gather path, field by field -/

/-- The device-cache fill of one field's output buffer (proof-side view of
the first masked write in `fetch_data`). -/
def gpuStage (s : ServerState) (tnid : List Nat) (nm : String) (rs : Mat) : Mat :=
  if (maskSelect tnid (tnid.map s.gpu_flag)).length ≠ 0 then
    maskAssign rs (tnid.map s.gpu_flag)
      (((maskSelect tnid (tnid.map s.gpu_flag)).map s.localid2cacheid).map (cacheRow s nm))
  else rs

/-- The remote-fetch fill of one field's output buffer (proof-side view of
the second masked write in `fetch_data`). -/
def cpuStage (s : ServerState) (store : Store) (tnid : List Nat) (nm : String)
    (rs : Mat) : Mat :=
  if (maskSelect tnid (tnid.map s.cpu_flag)).length ≠ 0 then
    maskAssign rs (tnid.map s.cpu_flag)
      (lookupD (get_feat_from_server s store (maskSelect tnid (tnid.map s.cpu_flag))
        (s.dims.map Prod.fst)) nm [])
  else rs

theorem fetch_data_layer_eq (s : ServerState) (store : Store) (tnid : List Nat) :
    fetch_data_layer s store tnid
      = s.dims.map (fun p => (p.1, cpuStage s store tnid p.1
          (gpuStage s tnid p.1 (tnid.map (fun _ => List.replicate p.2 (0 : Int)))))) := by
  simp only [fetch_data_layer, gpuStage, cpuStage]
  by_cases hg1 : (maskSelect tnid (tnid.map s.gpu_flag)).length ≠ 0 <;>
    by_cases hg2 : (maskSelect tnid (tnid.map s.cpu_flag)).length ≠ 0 <;>
      simp [hg1, hg2, List.map_map, Function.comp]

theorem gpuStage_length (s : ServerState) (tnid : List Nat) (nm : String) (rs : Mat) :
    (gpuStage s tnid nm rs).length = rs.length := by
  unfold gpuStage
  exact stage_length _ _ _ _

theorem cpuStage_length (s : ServerState) (store : Store) (tnid : List Nat)
    (nm : String) (rs : Mat) :
    (cpuStage s store tnid nm rs).length = rs.length := by
  unfold cpuStage
  exact stage_length _ _ _ _

theorem gpuStage_getD (s : ServerState) (tnid : List Nat) (nm : String) (rs : Mat)
    (hlen : rs.length = tnid.length) (j : Nat) (hj : j < tnid.length) :
    (gpuStage s tnid nm rs).getD j []
      = if s.gpu_flag (tnid.getD j 0)
          then cacheRow s nm (s.localid2cacheid (tnid.getD j 0))
          else rs.getD j [] := by
  unfold gpuStage
  rw [List.map_map]
  exact stage_getD s.gpu_flag (cacheRow s nm ∘ s.localid2cacheid) [] tnid rs hlen j hj

theorem cpuStage_getD (s : ServerState) (store : Store) (tnid : List Nat)
    (nm : String) (rs : Mat) (names : List String)
    (hkeys : s.dims.map Prod.fst = names) (hnm : nm ∈ names)
    (hlen : rs.length = tnid.length) (j : Nat) (hj : j < tnid.length) :
    (cpuStage s store tnid nm rs).getD j []
      = if s.cpu_flag (tnid.getD j 0)
          then store nm (s.nid_map (tnid.getD j 0))
          else rs.getD j [] := by
  unfold cpuStage
  rw [hkeys]
  have hlk : lookupD (get_feat_from_server s store
      (maskSelect tnid (tnid.map s.cpu_flag)) names) nm []
      = (maskSelect tnid (tnid.map s.cpu_flag)).map (fun t => store nm (s.nid_map t)) := by
    unfold get_feat_from_server
    exact lookupD_map_self _ [] nm names hnm
  rw [hlk]
  exact stage_getD s.cpu_flag (fun t => store nm (s.nid_map t)) [] tnid rs hlen j hj

theorem fetch_data_layer_correct
    (s : ServerState) (store : Store) (names : List String) (w : String → Nat)
    (hdims : s.dims = names.map (fun nm => (nm, w nm)))
    (tnid : List Nat)
    (hinv : ∀ t ∈ tnid, s.cpu_flag t = !s.gpu_flag t)
    (hcoh : ∀ nm ∈ names, ∀ t ∈ tnid, s.gpu_flag t = true →
      cacheRow s nm (s.localid2cacheid t) = store nm (s.nid_map t)) :
    fetch_data_layer s store tnid
      = names.map (fun nm => (nm, tnid.map (fun t => store nm (s.nid_map t)))) := by
  have hkeys : s.dims.map Prod.fst = names := by
    rw [hdims, List.map_map]
    have h2 : (Prod.fst ∘ fun nm : String => (nm, w nm)) = id := rfl
    rw [h2, List.map_id]
  rw [fetch_data_layer_eq, hdims, List.map_map]
  apply List.map_congr_left
  intro nm hnm
  simp only [Function.comp]
  congr 1
  have hbase : (tnid.map (fun _ => List.replicate (w nm) (0 : Int))).length = tnid.length := by
    simp
  have hg : (gpuStage s tnid nm (tnid.map (fun _ => List.replicate (w nm) (0 : Int)))).length
      = tnid.length := by
    rw [gpuStage_length, hbase]
  apply List.ext_get
  · rw [cpuStage_length, hg]
    simp
  · intro j h1 h2
    have hj : j < tnid.length := by
      have := h1
      rw [cpuStage_length, hg] at this
      exact this
    have hj2 : j < (tnid.map (fun t => store nm (s.nid_map t))).length := by simpa using hj
    rw [List.get_eq_getElem, List.get_eq_getElem,
      ← List.getD_eq_getElem _ ([] : List Int) h1, ← List.getD_eq_getElem _ ([] : List Int) h2]
    rw [cpuStage_getD s store tnid nm _ names hkeys hnm (by rw [hg]) j hj]
    rw [gpuStage_getD s tnid nm _ hbase j hj]
    rw [getD_map_of_lt (fun t => store nm (s.nid_map t)) tnid 0 ([] : List Int) j hj]
    have htmem : tnid.getD j 0 ∈ tnid := by
      rw [List.getD_eq_getElem tnid 0 hj]
      exact List.getElem_mem hj
    have hflag := hinv _ htmem
    by_cases hgpu : s.gpu_flag (tnid.getD j 0) = true
    · have hcpu : s.cpu_flag (tnid.getD j 0) = false := by
        rw [hflag, hgpu]
        rfl
      rw [hcpu, hgpu]
      simp only [Bool.false_eq_true, if_false, if_true]
      exact hcoh nm hnm _ htmem hgpu
    · have hgpu' : s.gpu_flag (tnid.getD j 0) = false := by
        cases h : s.gpu_flag (tnid.getD j 0)
        · rfl
        · exact absurd h hgpu
      have hcpu : s.cpu_flag (tnid.getD j 0) = true := by
        rw [hflag, hgpu']
        rfl
      rw [hcpu]
      simp

/-! ### The fast path and the state left by `auto_cache` -/

theorem fetch_from_cache_layer_correct
    (s : ServerState) (store : Store) (names : List String) (M : String → Mat)
    (hcache : s.gpu_fix_cache = names.map (fun nm => (nm, M nm)))
    (tnid : List Nat)
    (hM : ∀ nm ∈ names, ∀ t ∈ tnid, (M nm).getD t [] = store nm (s.nid_map t)) :
    fetch_from_cache_layer s tnid
      = names.map (fun nm => (nm, tnid.map (fun t => store nm (s.nid_map t)))) := by
  unfold fetch_from_cache_layer
  rw [hcache, List.map_map]
  apply List.map_congr_left
  intro nm hnm
  simp only [Function.comp]
  congr 1
  apply List.map_congr_left
  intro t ht
  exact hM nm hnm t ht

theorem getD_map_indexOf {β : Type} (f : Nat → β) (nids : List Nat) (t : Nat)
    (ht : t ∈ nids) (d : β) :
    (nids.map f).getD (nids.indexOf t) d = f t := by
  have hidx : nids.indexOf t < nids.length := List.indexOf_lt_length.mpr ht
  rw [getD_map_of_lt f nids 0 d _ hidx]
  congr 1
  rw [List.getD_eq_getElem nids 0 hidx]
  exact List.getElem_indexOf hidx

theorem getD_map_range {β : Type} (f : Nat → β) (n t : Nat) (ht : t < n) (d : β) :
    ((List.range n).map f).getD t d = f t := by
  rw [getD_map_of_lt f _ 0 d t (by simpa using ht)]
  congr 1
  rw [List.getD_eq_getElem _ 0 (by simpa using ht)]
  exact List.getElem_range t (by simpa using ht)

theorem setFlags_partition (nids : List Nat) (t : Nat) :
    setFlags (fun _ => true) nids false t = !(setFlags (fun _ => false) nids true t) := by
  unfold setFlags
  by_cases hm : t ∈ nids <;> simp [hm]

theorem setFlags_false_base (nids : List Nat) (t : Nat) :
    setFlags (fun _ => false) nids true t = true ↔ t ∈ nids := by
  unfold setFlags
  by_cases hm : t ∈ nids <;> simp [hm]

theorem populate_state
    (s0 : ServerState) (store : Store) (names : List String) (w : String → Nat)
    (nids : List Nat) (full : Bool)
    (hnd : names.Nodup)
    (hdims0 : s0.dims = names.map (fun nm => (nm, w nm)))
    (hcache0 : s0.gpu_fix_cache = []) :
    cache_fix_data s0 nids (get_feat_from_server s0 store nids names) full
      = .ok { s0 with
          localid2cacheid := scatterArange s0.localid2cacheid nids
          cached_num := nids.length
          dims := names.map (fun nm => (nm, matCols (nids.map (fun i => store nm (s0.nid_map i)))))
          gpu_fix_cache := names.map (fun nm => (nm, nids.map (fun i => store nm (s0.nid_map i))))
          cpu_flag := setFlags s0.cpu_flag nids false
          gpu_flag := setFlags s0.gpu_flag nids true
          full_cached := full } := by
  rw [cache_fix_data_ok s0 nids _ full (get_feat_rows s0 store nids names)]
  have hfc : (get_feat_from_server s0 store nids names).foldl
      (fun acc p => updateAssoc acc p.1 p.2) s0.gpu_fix_cache
      = names.map (fun nm => (nm, nids.map (fun i => store nm (s0.nid_map i)))) := by
    rw [hcache0]
    unfold get_feat_from_server
    rw [List.foldl_map]
    exact foldl_updateAssoc_fresh
      (fun nm => nids.map (fun i => store nm (s0.nid_map i))) names [] hnd (by simp)
  have hfd : (get_feat_from_server s0 store nids names).foldl
      (fun acc p => updateAssoc acc p.1 (matCols p.2)) s0.dims
      = names.map (fun nm => (nm, matCols (nids.map (fun i => store nm (s0.nid_map i))))) := by
    rw [hdims0]
    unfold get_feat_from_server
    rw [List.foldl_map]
    exact foldl_updateAssoc_aligned
      (fun nm => matCols (nids.map (fun i => store nm (s0.nid_map i)))) names w hnd
  rw [hfc, hfd]

theorem auto_cache_eq (s0 : ServerState) (store : Store) (deg : Nat → Nat)
    (tm pk : Nat) (names : List String) :
    auto_cache s0 store deg tm pk names
      = cache_fix_data { s0 with capability := computeCapability tm pk s0.total_dim }
          (choose_cache_nids (computeCapability tm pk s0.total_dim) s0.node_num deg)
          (get_feat_from_server
            { s0 with capability := computeCapability tm pk s0.total_dim } store
            (choose_cache_nids (computeCapability tm pk s0.total_dim) s0.node_num deg)
            names)
          (decide (computeCapability tm pk s0.total_dim > (s0.node_num : Int))) := by
  unfold auto_cache choose_cache_nids
  by_cases hc : computeCapability tm pk s0.total_dim > (s0.node_num : Int) <;>
    simp [hc]

theorem auto_cache_state
    (s0 : ServerState) (store : Store) (deg : Nat → Nat) (tm pk : Nat)
    (names : List String) (w : String → Nat)
    (hnd : names.Nodup)
    (hdims0 : s0.dims = names.map (fun nm => (nm, w nm)))
    (hcache0 : s0.gpu_fix_cache = []) :
    auto_cache s0 store deg tm pk names
      = .ok { s0 with
          capability := computeCapability tm pk s0.total_dim
          localid2cacheid := scatterArange s0.localid2cacheid
            (choose_cache_nids (computeCapability tm pk s0.total_dim) s0.node_num deg)
          cached_num := (choose_cache_nids (computeCapability tm pk s0.total_dim)
            s0.node_num deg).length
          dims := names.map (fun nm => (nm, matCols
            ((choose_cache_nids (computeCapability tm pk s0.total_dim) s0.node_num deg).map
              (fun i => store nm (s0.nid_map i)))))
          gpu_fix_cache := names.map (fun nm => (nm,
            (choose_cache_nids (computeCapability tm pk s0.total_dim) s0.node_num deg).map
              (fun i => store nm (s0.nid_map i))))
          cpu_flag := setFlags s0.cpu_flag
            (choose_cache_nids (computeCapability tm pk s0.total_dim) s0.node_num deg) false
          gpu_flag := setFlags s0.gpu_flag
            (choose_cache_nids (computeCapability tm pk s0.total_dim) s0.node_num deg) true
          full_cached := decide (computeCapability tm pk s0.total_dim
            > (s0.node_num : Int)) } := by
  rw [auto_cache_eq]
  exact populate_state { s0 with capability := computeCapability tm pk s0.total_dim }
    store names w _ _ hnd hdims0 hcache0

/-! ### Well-formed populated states and end-to-end gather correctness -/

/-- Everything the gather paths need from a populated cache state over ids
below `bound`: structured `dims` and cache dictionaries, the location
partition, slot-map coherence with the host store, and — when fully
cached — direct-id coherence of the cache buffers. -/
def GoodState (s : ServerState) (store : Store) (names : List String) (bound : Nat) : Prop :=
  (∃ w : String → Nat, s.dims = names.map (fun nm => (nm, w nm))) ∧
  (∃ M : String → Mat, s.gpu_fix_cache = names.map (fun nm => (nm, M nm)) ∧
    (s.full_cached = true → ∀ nm ∈ names, ∀ t, t < bound →
      (M nm).getD t [] = store nm (s.nid_map t))) ∧
  (∀ t, t < bound → s.cpu_flag t = !s.gpu_flag t) ∧
  (∀ nm ∈ names, ∀ t, t < bound → s.gpu_flag t = true →
    cacheRow s nm (s.localid2cacheid t) = store nm (s.nid_map t))

theorem goodState_fetch_frames (s : ServerState) (store : Store)
    (names : List String) (bound : Nat) (layers : List (List Nat))
    (hg : GoodState s store names bound)
    (hb : ∀ L ∈ layers, ∀ t ∈ L, t < bound) :
    fetch_frames s store layers
      = layers.map (fun tnid =>
          names.map (fun nm => (nm, tnid.map (fun t => store nm (s.nid_map t))))) := by
  obtain ⟨⟨w, hdims⟩, ⟨M, hcache, hMfull⟩, hinv, hcoh⟩ := hg
  unfold fetch_frames
  by_cases hfc : s.full_cached = true
  · rw [if_pos hfc]
    apply List.map_congr_left
    intro tnid htnid
    exact fetch_from_cache_layer_correct s store names M hcache tnid
      (fun nm hnm t ht => hMfull hfc nm hnm t (hb tnid htnid t ht))
  · rw [if_neg hfc]
    apply List.map_congr_left
    intro tnid htnid
    exact fetch_data_layer_correct s store names w hdims tnid
      (fun t ht => hinv t (hb tnid htnid t ht))
      (fun nm hnm t ht => hcoh nm hnm t (hb tnid htnid t ht))

/-- The capability computed when `auto_cache` runs right after
`init_field` on a fresh server. -/
def setupCapability (n : Nat) (m : Nat → Nat) (store : Store) (tm pk : Nat)
    (names : List String) : Int :=
  computeCapability tm pk (init_field (initState n m) store names).total_dim

/-- The ids that run of `auto_cache` caches. -/
def setupNids (n : Nat) (m : Nat → Nat) (store : Store) (deg : Nat → Nat)
    (tm pk : Nat) (names : List String) : List Nat :=
  choose_cache_nids (setupCapability n m store tm pk names) n deg

theorem auto_cache_good
    (n : Nat) (m : Nat → Nat) (store : Store) (deg : Nat → Nat) (tm pk : Nat)
    (names : List String) (hnd : names.Nodup) (s : ServerState)
    (hok : auto_cache (init_field (initState n m) store names) store deg tm pk names
      = .ok s) :
    s.nid_map = m ∧
    s.node_num = n ∧
    s.dims = names.map (fun nm => (nm, matCols
      ((setupNids n m store deg tm pk names).map (fun i => store nm (m i))))) ∧
    s.gpu_fix_cache = names.map (fun nm =>
      (nm, (setupNids n m store deg tm pk names).map (fun i => store nm (m i)))) ∧
    s.cpu_flag = setFlags (fun _ => true) (setupNids n m store deg tm pk names) false ∧
    s.gpu_flag = setFlags (fun _ => false) (setupNids n m store deg tm pk names) true ∧
    s.localid2cacheid = scatterArange (fun _ => 0) (setupNids n m store deg tm pk names) ∧
    s.full_cached = decide (setupCapability n m store tm pk names > (n : Int)) ∧
    s.capability = setupCapability n m store tm pk names ∧
    s.cached_num = (setupNids n m store deg tm pk names).length := by
  rw [auto_cache_state (init_field (initState n m) store names) store deg tm pk names
    (fun nm => (store nm ((initState n m).nid_map 0)).length) hnd
    (init_field_dims (initState n m) store names hnd rfl) rfl] at hok
  have hs := Except.ok.inj hok
  refine ⟨?_, ?_, ?_, ?_, ?_, ?_, ?_, ?_, ?_, ?_⟩ <;> rw [← hs] <;> rfl

theorem auto_cache_goodState
    (n : Nat) (m : Nat → Nat) (store : Store) (deg : Nat → Nat) (tm pk : Nat)
    (names : List String) (hnd : names.Nodup) (s : ServerState)
    (hok : auto_cache (init_field (initState n m) store names) store deg tm pk names
      = .ok s) :
    GoodState s store names n := by
  obtain ⟨hnid, hnn, hdims, hcache, hcpu, hgpu, hslot, hfull, hcap, hcnt⟩ :=
    auto_cache_good n m store deg tm pk names hnd s hok
  refine ⟨⟨_, hdims⟩, ⟨_, hcache, ?_⟩, ?_, ?_⟩
  · intro hfc nm hnm t ht
    rw [hfull] at hfc
    have hcap' : setupCapability n m store tm pk names > (n : Int) :=
      of_decide_eq_true hfc
    have hnids : setupNids n m store deg tm pk names = List.range n := by
      unfold setupNids choose_cache_nids
      rw [if_pos hcap']
    rw [hnid, hnids]
    exact getD_map_range _ n t ht []
  · intro t ht
    rw [hcpu, hgpu]
    exact setFlags_partition _ t
  · intro nm hnm t ht hg
    rw [hgpu] at hg
    have hmem : t ∈ setupNids n m store deg tm pk names :=
      (setFlags_false_base _ t).mp hg
    unfold cacheRow
    rw [hcache, hslot, hnid]
    rw [lookupD_map_self _ [] nm names hnm]
    have hsc : scatterArange (fun _ => 0) (setupNids n m store deg tm pk names) t
        = (setupNids n m store deg tm pk names).indexOf t := by
      unfold scatterArange
      rw [if_pos hmem]
    rw [hsc]
    exact getD_map_indexOf (fun i => store nm (m i)) _ t hmem []

/-- C1: for a cache state reached by a successful setup-and-populate run
(`init_field` then `auto_cache`), `fetch_data` fills, for every hop and
every field, output row `j` with exactly the authoritative host-store
feature row of the hop's `j`-th requested id — on the fast path and on
both branches of the partition-and-merge path alike. -/
theorem fetch_rows_match_store
    (n : Nat) (m : Nat → Nat) (store : Store) (deg : Nat → Nat) (tm pk : Nat)
    (names : List String) (hnd : names.Nodup)
    (_htd : (init_field (initState n m) store names).total_dim ≠ 0)
    (s : ServerState)
    (hok : auto_cache (init_field (initState n m) store names) store deg tm pk names
      = .ok s)
    (layers : List (List Nat)) (hb : ∀ L ∈ layers, ∀ t ∈ L, t < n) :
    fetch_frames s store layers
      = layers.map (fun tnid =>
          names.map (fun nm => (nm, tnid.map (fun t => store nm (m t))))) := by
  have hgood := auto_cache_goodState n m store deg tm pk names hnd s hok
  have hnid : s.nid_map = m :=
    (auto_cache_good n m store deg tm pk names hnd s hok).1
  rw [goodState_fetch_frames s store names n layers hgood hb, hnid]

/-- Concrete host store used by several witnesses: every field maps global
id `g` to the one-element row `[5*g + 1]`. -/
def storeA : Store := fun _ g => [5 * (g : Int) + 1]

/-- Witness for C1: a two-node graph where `auto_cache` has room for one
node, caching node 1 (higher out-degree) on device; the request `[0, 1]`
is answered with node 0's row from the host branch and node 1's row from
the cache branch, in request order. -/
theorem fetch_rows_match_store_witness :
    fetch_frames
      ((auto_cache (init_field (initState 2 (fun g => g)) storeA ["f"]) storeA
        (fun i => i) (headroomBytes + 4) 0 ["f"]).toOption.getD dfltState)
      storeA [[0, 1]]
      = [[("f", [[1], [6]])]] :=
  fetch_rows_match_store 2 (fun g => g) storeA (fun i => i) (headroomBytes + 4) 0
    ["f"] (by decide) (by decide)
    ((auto_cache (init_field (initState 2 (fun g => g)) storeA ["f"]) storeA
      (fun i => i) (headroomBytes + 4) 0 ["f"]).toOption.getD dfltState)
    (by rfl) [[0, 1]] (by decide)

/-- A full-cache population whose slot map is not the identity: node 1
occupies cache row 0 and node 0 cache row 1. -/
def sC2 : ServerState :=
  (cache_fix_data (initState 2 (fun g => g)) [1, 0]
    [("f", [[10], [20]])] true).toOption.getD dfltState

/-- C2 counterexample: on a `full_cached` state with a non-identity slot
map, the fast path answers request `[0]` with cache row 0 (node 1's data)
while the general partition-and-merge path answers with cache row
`slot[0] = 1` (node 0's data) — the two paths disagree. -/
theorem fast_path_differs_from_general_path :
    fetch_from_cache_layer sC2 [0] ≠ fetch_data_layer sC2 (fun _ _ => [0]) [0] := by
  decide

/-- C2 amended: the fast path agrees with the general path on every
`full_cached` state actually produced by the setup run (`init_field` then
`auto_cache`), whose full-cache branch caches ids in ascending order and
therefore leaves the slot map the identity. -/
theorem fast_path_equiv_on_full_auto_cache
    (n : Nat) (m : Nat → Nat) (store : Store) (deg : Nat → Nat) (tm pk : Nat)
    (names : List String) (hnd : names.Nodup)
    (_htd : (init_field (initState n m) store names).total_dim ≠ 0)
    (s : ServerState)
    (hok : auto_cache (init_field (initState n m) store names) store deg tm pk names
      = .ok s)
    (hfull : s.full_cached = true)
    (tnid : List Nat) (hb : ∀ t ∈ tnid, t < n) :
    fetch_from_cache_layer s tnid = fetch_data_layer s store tnid := by
  obtain ⟨⟨w, hdims⟩, ⟨M, hcache, hMfull⟩, hinv, hcoh⟩ :=
    auto_cache_goodState n m store deg tm pk names hnd s hok
  rw [fetch_from_cache_layer_correct s store names M hcache tnid
    (fun nm hnm t ht => hMfull hfull nm hnm t (hb t ht))]
  rw [fetch_data_layer_correct s store names w hdims tnid
    (fun t ht => hinv t (hb t ht)) (fun nm hnm t ht => hcoh nm hnm t (hb t ht))]

/-- Witness for the amended C2 at a concrete one-node fully cached setup. -/
theorem fast_path_equiv_on_full_auto_cache_witness :
    fetch_from_cache_layer
      ((auto_cache (init_field (initState 1 (fun g => g)) storeA ["f"]) storeA
        (fun _ => 0) (headroomBytes + 12) 0 ["f"]).toOption.getD dfltState) [0]
      = fetch_data_layer
        ((auto_cache (init_field (initState 1 (fun g => g)) storeA ["f"]) storeA
          (fun _ => 0) (headroomBytes + 12) 0 ["f"]).toOption.getD dfltState)
        storeA [0] :=
  fast_path_equiv_on_full_auto_cache 1 (fun g => g) storeA (fun _ => 0)
    (headroomBytes + 12) 0 ["f"] (by decide) (by decide)
    ((auto_cache (init_field (initState 1 (fun g => g)) storeA ["f"]) storeA
      (fun _ => 0) (headroomBytes + 12) 0 ["f"]).toOption.getD dfltState)
    (by rfl) (by rfl) [0] (by decide)

/-- C9: `fetch_data` is read-only with respect to cache state — it returns
the server state unchanged and rewrites only the nodeflow's per-hop
feature frames, leaving the hop id lists intact. -/
theorem fetch_preserves_cache_state (s : ServerState) (store : Store) (nf : Nodeflow) :
    (fetch_data s store nf).1 = s ∧
    (fetch_data s store nf).2.layers = nf.layers ∧
    (fetch_data s store nf).2.node_frames
      = fetch_frames s store nf.layers ++ nf.node_frames.drop nf.layers.length :=
  ⟨rfl, rfl, rfl⟩

/-- C10: when `full_cached` is false and every requested id of every hop
is device-resident (with the location partition intact), the gather's
output does not depend on the host store at all: any two stores yield
identical frames. -/
theorem gather_all_cached_ignores_host_store
    (s : ServerState) (store1 store2 : Store) (layers : List (List Nat))
    (hfc : s.full_cached = false)
    (hinv : ∀ L ∈ layers, ∀ t ∈ L, s.cpu_flag t = !s.gpu_flag t)
    (hgpu : ∀ L ∈ layers, ∀ t ∈ L, s.gpu_flag t = true) :
    fetch_frames s store1 layers = fetch_frames s store2 layers := by
  unfold fetch_frames
  rw [hfc]
  simp only [Bool.false_eq_true, if_false]
  apply List.map_congr_left
  intro tnid htnid
  have hcpul : ∀ t ∈ tnid, s.cpu_flag t = false := by
    intro t ht
    rw [hinv tnid htnid t ht, hgpu tnid htnid t ht]
    rfl
  have hfil : maskSelect tnid (tnid.map s.cpu_flag) = [] := by
    rw [maskSelect_map_eq_filter]
    exact List.filter_eq_nil.mpr (fun t ht => by simp [hcpul t ht])
  rw [fetch_data_layer_eq s store1 tnid, fetch_data_layer_eq s store2 tnid]
  apply List.map_congr_left
  intro p hp
  congr 1
  unfold cpuStage
  rw [hfil]
  simp

/-- A two-node state with both nodes cached through `cache_fix_data` and
`full_cached` left false. -/
def sC10 : ServerState :=
  (cache_fix_data (initState 2 (fun g => g)) [0, 1]
    [("f", [[1], [2]])] false).toOption.getD dfltState

/-- Witness for C10: with both requested ids cached, two host stores that
agree nowhere still produce the same gather output. -/
theorem gather_all_cached_ignores_host_store_witness :
    fetch_frames sC10 (fun _ _ => [7]) [[0, 1]]
      = fetch_frames sC10 (fun _ _ => [9]) [[0, 1]] :=
  gather_all_cached_ignores_host_store sC10 (fun _ _ => [7]) (fun _ _ => [9])
    [[0, 1]] (by rfl) (by decide) (by decide)

/-! ### The location partition invariant and population postconditions -/

/-- The location-partition invariant: below `node_num`, each id's host
flag is the negation of its device flag (exactly one of the two holds). -/
def LocationInv (s : ServerState) : Prop :=
  ∀ i, i < s.node_num → s.cpu_flag i = !s.gpu_flag i

/-- C5: the partition invariant holds at construction and is preserved by
`init_field`, by every successful `cache_fix_data`, and by `fetch_data`. -/
theorem partition_invariant_preserved :
    (∀ n m, LocationInv (initState n m)) ∧
    (∀ s store names, LocationInv s → LocationInv (init_field s store names)) ∧
    (∀ s nids data full s', LocationInv s →
      cache_fix_data s nids data full = .ok s' → LocationInv s') ∧
    (∀ s store nf, LocationInv s → LocationInv (fetch_data s store nf).1) := by
  refine ⟨?_, ?_, ?_, ?_⟩
  · intro n m i hi
    rfl
  · intro s store names h i hi
    exact h i hi
  · intro s nids data full s' h hok
    simp only [cache_fix_data] at hok
    cases hcl : cacheLoop nids.length s.dims s.gpu_fix_cache data with
    | error e =>
      rw [hcl] at hok
      exact absurd hok (by simp)
    | ok pr =>
      obtain ⟨dims', cache'⟩ := pr
      rw [hcl] at hok
      have hs := Except.ok.inj hok
      rw [← hs]
      intro i hi
      show setFlags s.cpu_flag nids false i = !(setFlags s.gpu_flag nids true i)
      unfold setFlags
      by_cases hm : i ∈ nids
      · simp [hm]
      · simp only [hm, if_neg, if_false]
        exact h i hi
  · intro s store nf h
    exact h

/-- Witness for C5: the invariant carried through a concrete
construct-probe-populate chain. -/
theorem partition_invariant_preserved_witness :
    LocationInv ((cache_fix_data (init_field (initState 2 (fun g => g)) storeA ["f"])
      [1] [("f", [[6]])] false).toOption.getD dfltState) :=
  partition_invariant_preserved.2.2.1
    (init_field (initState 2 (fun g => g)) storeA ["f"]) [1] [("f", [[6]])] false
    ((cache_fix_data (init_field (initState 2 (fun g => g)) storeA ["f"])
      [1] [("f", [[6]])] false).toOption.getD dfltState)
    (partition_invariant_preserved.2.1 (initState 2 (fun g => g)) storeA ["f"]
      (partition_invariant_preserved.1 2 (fun g => g)))
    (by rfl)

/-- C6: a successful `cache_fix_data` over duplicate-free ids maps the
cached ids, in order, onto cache rows `0..|ids|-1` (so the slot map
restricted to them is a bijection onto the rows) and sets `cached_num` to
`|ids|`. -/
theorem slot_bijection_after_populate
    (s : ServerState) (nids : List Nat) (data : Frame) (full : Bool) (s' : ServerState)
    (hnd : nids.Nodup)
    (hok : cache_fix_data s nids data full = .ok s') :
    nids.map s'.localid2cacheid = List.range nids.length ∧
    s'.cached_num = nids.length := by
  simp only [cache_fix_data] at hok
  cases hcl : cacheLoop nids.length s.dims s.gpu_fix_cache data with
  | error e =>
    rw [hcl] at hok
    exact absurd hok (by simp)
  | ok pr =>
    obtain ⟨dims', cache'⟩ := pr
    rw [hcl] at hok
    have hs := Except.ok.inj hok
    rw [← hs]
    refine ⟨?_, rfl⟩
    apply List.ext_get
    · simp
    · intro j h1 h2
      have hj : j < nids.length := by simpa using h1
      rw [List.get_eq_getElem, List.get_eq_getElem, List.getElem_map,
        List.getElem_range]
      show scatterArange s.localid2cacheid nids nids[j] = j
      unfold scatterArange
      rw [if_pos (List.getElem_mem hj)]
      exact List.indexOf_getElem hnd j hj

/-- Witness for C6 on a concrete three-node server caching ids `[2, 0]`. -/
theorem slot_bijection_after_populate_witness :
    [2, 0].map ((cache_fix_data (initState 3 (fun g => g)) [2, 0]
        [("f", [[1], [2]])] false).toOption.getD dfltState).localid2cacheid
      = List.range 2 ∧
    ((cache_fix_data (initState 3 (fun g => g)) [2, 0]
        [("f", [[1], [2]])] false).toOption.getD dfltState).cached_num = 2 :=
  slot_bijection_after_populate (initState 3 (fun g => g)) [2, 0]
    [("f", [[1], [2]])] false
    ((cache_fix_data (initState 3 (fun g => g)) [2, 0]
      [("f", [[1], [2]])] false).toOption.getD dfltState)
    (by decide) (by rfl)

/-- C7: `cache_fix_data` raises DimensionMismatch exactly when some
field's buffer has a row count different from `|ids|`, and succeeds
whenever every field's row count equals `|ids|`. -/
theorem populate_fails_iff_row_mismatch
    (s : ServerState) (nids : List Nat) (data : Frame) (full : Bool) :
    (cache_fix_data s nids data full = .error CacheErr.dimensionMismatch
      ↔ ∃ p ∈ data, p.2.length ≠ nids.length) ∧
    ((∀ p ∈ data, p.2.length = nids.length) →
      ∃ s', cache_fix_data s nids data full = .ok s') := by
  constructor
  · constructor
    · intro h
      by_contra hnex
      push_neg at hnex
      have hall : ∀ p ∈ data, p.2.length = nids.length := hnex
      rw [cache_fix_data_ok s nids data full hall] at h
      exact absurd h (by simp)
    · intro hex
      simp only [cache_fix_data]
      rw [(cacheLoop_error_iff nids.length data s.dims s.gpu_fix_cache).mpr hex]
  · intro hall
    exact ⟨_, cache_fix_data_ok s nids data full hall⟩

/-- Witness for C7: a matching row count populates successfully, and a
mismatched one raises DimensionMismatch. -/
theorem populate_fails_iff_row_mismatch_witness :
    (∃ s', cache_fix_data (initState 2 (fun g => g)) [0]
      [("f", [[3]])] false = .ok s') ∧
    (cache_fix_data (initState 2 (fun g => g)) [0]
      [("f", [[3], [4]])] false = .error CacheErr.dimensionMismatch) :=
  ⟨(populate_fails_iff_row_mismatch (initState 2 (fun g => g)) [0]
      [("f", [[3]])] false).2 (by decide),
   (populate_fails_iff_row_mismatch (initState 2 (fun g => g)) [0]
      [("f", [[3], [4]])] false).1.mpr ⟨("f", [[3], [4]]), by decide, by decide⟩⟩

/-! ### Dimension overwriting during population -/

theorem lookupD_foldl_not_mem {β : Type} (v : (String × Mat) → β) (d : β) :
    ∀ (data : Frame) (acc : List (String × β)) (k : String),
      k ∉ data.map Prod.fst →
      lookupD (data.foldl (fun a q => updateAssoc a q.1 (v q)) acc) k d
        = lookupD acc k d
  | [], _, _, _ => rfl
  | q :: rest, acc, k, hk => by
    have hne : q.1 ≠ k := by
      intro he
      exact hk (by simp [he])
    have hrest : k ∉ rest.map Prod.fst := by
      intro hm
      exact hk (by simp [hm])
    simp only [List.foldl_cons]
    rw [lookupD_foldl_not_mem v d rest _ k hrest]
    exact lookupD_updateAssoc_ne (v q) d acc q.1 k hne

theorem lookupD_foldl_updateAssoc {β : Type} (v : (String × Mat) → β) (d : β) :
    ∀ (data : Frame) (acc : List (String × β)) (p : String × Mat),
      p ∈ data → (data.map Prod.fst).Nodup →
      lookupD (data.foldl (fun a q => updateAssoc a q.1 (v q)) acc) p.1 d = v p
  | [], _, p, hp, _ => absurd hp (List.not_mem_nil p)
  | q :: rest, acc, p, hp, hnd => by
    have hnd' : (rest.map Prod.fst).Nodup := (List.nodup_cons.mp (by simpa using hnd)).2
    rcases List.mem_cons.mp hp with rfl | hp'
    · have hk : p.1 ∉ rest.map Prod.fst := (List.nodup_cons.mp (by simpa using hnd)).1
      simp only [List.foldl_cons]
      rw [lookupD_foldl_not_mem v d rest _ p.1 hk]
      exact lookupD_updateAssoc_self (v p) d acc p.1
    · simp only [List.foldl_cons]
      exact lookupD_foldl_updateAssoc v d rest _ p hp' hnd'

/-- Host store reporting width-2 rows for every field. -/
def storeC8 : Store := fun _ _ => [1, 2]

/-- C8 counterexample: `init_field` records width 2 for field `f`, yet
populating with width-3 rows raises nothing (the call returns ok) and the
recorded width is silently replaced by 3. -/
theorem populate_overwrites_dims :
    (cache_fix_data (init_field (initState 1 (fun g => g)) storeC8 ["f"])
      [0] [("f", [[7, 8, 9]])] false).isOk = true ∧
    lookupD (init_field (initState 1 (fun g => g)) storeC8 ["f"]).dims "f" 0 = 2 ∧
    lookupD ((cache_fix_data (init_field (initState 1 (fun g => g)) storeC8 ["f"])
      [0] [("f", [[7, 8, 9]])] false).toOption.getD dfltState).dims "f" 0 = 3 := by
  refine ⟨by decide, by decide, by decide⟩

/-- C8 amended: `cache_fix_data` validates only row counts, never the
per-node widths recorded by `init_field`: whenever every buffer has
`|ids|` rows it succeeds, and each populated field's recorded width is
silently replaced by the population data's width. -/
theorem populate_succeeds_and_overwrites_dims
    (s : ServerState) (nids : List Nat) (data : Frame) (full : Bool)
    (hrows : ∀ p ∈ data, p.2.length = nids.length)
    (hkeys : (data.map Prod.fst).Nodup) :
    ∃ s', cache_fix_data s nids data full = .ok s' ∧
      ∀ p ∈ data, lookupD s'.dims p.1 0 = matCols p.2 := by
  refine ⟨_, cache_fix_data_ok s nids data full hrows, ?_⟩
  intro p hp
  show lookupD (data.foldl (fun a q => updateAssoc a q.1 (matCols q.2)) s.dims) p.1 0
    = matCols p.2
  exact lookupD_foldl_updateAssoc (fun q => matCols q.2) 0 data s.dims p hp hkeys

/-- Witness for the amended C8: populating a width-2 field over one id
succeeds and records width 2. -/
theorem populate_succeeds_and_overwrites_dims_witness :
    ∃ s', cache_fix_data (initState 1 (fun g => g)) [0]
        [("f", [[4, 5]])] false = .ok s' ∧
      ∀ p ∈ ([("f", [[4, 5]])] : Frame), lookupD s'.dims p.1 0 = matCols p.2 :=
  populate_succeeds_and_overwrites_dims (initState 1 (fun g => g)) [0]
    [("f", [[4, 5]])] false (by decide) (by decide)

/-! ### Placement order: permutation and sortedness of `argsortDesc` -/

/-- The order `argsortDesc` realizes: strictly larger degree first, ties
resolved by ascending id. -/
def DegOrder (deg : Nat → Nat) (a b : Nat) : Prop :=
  deg b < deg a ∨ (deg a = deg b ∧ a < b)

theorem insertDescBy_perm (deg : Nat → Nat) (i : Nat) :
    ∀ l : List Nat, (insertDescBy deg i l).Perm (i :: l)
  | [] => List.Perm.refl _
  | j :: rest => by
    unfold insertDescBy
    by_cases h : deg j ≤ deg i
    · rw [if_pos h]
    · rw [if_neg h]
      exact ((insertDescBy_perm deg i rest).cons j).trans (List.Perm.swap i j rest)

theorem insertDescBy_pairwise (deg : Nat → Nat) (i : Nat) :
    ∀ l : List Nat, l.Pairwise (DegOrder deg) → (∀ j ∈ l, i < j) →
      (insertDescBy deg i l).Pairwise (DegOrder deg)
  | [], _, _ => List.pairwise_cons.mpr ⟨by simp, List.Pairwise.nil⟩
  | j :: rest, hp, hlt => by
    obtain ⟨hj, hrest⟩ := List.pairwise_cons.mp hp
    unfold insertDescBy
    by_cases h : deg j ≤ deg i
    · rw [if_pos h]
      have hij : DegOrder deg i j := by
        rcases Nat.lt_or_ge (deg j) (deg i) with hlt' | hge
        · exact Or.inl hlt'
        · exact Or.inr ⟨Nat.le_antisymm hge h, hlt j (by simp)⟩
      refine List.pairwise_cons.mpr ⟨?_, hp⟩
      intro x hx
      rcases List.mem_cons.mp hx with rfl | hx'
      · exact hij
      · rcases hj x hx' with hlt' | ⟨heq, hjx⟩
        · exact Or.inl (Nat.lt_of_lt_of_le hlt' h)
        · rcases Nat.lt_or_ge (deg j) (deg i) with hlt2 | hge
          · exact Or.inl (heq ▸ hlt2)
          · have heq2 : deg i = deg j := Nat.le_antisymm hge h
            exact Or.inr ⟨heq2.trans heq, Nat.lt_trans (hlt j (by simp)) hjx⟩
    · rw [if_neg h]
      have hdij : deg i < deg j := Nat.lt_of_not_le h
      refine List.pairwise_cons.mpr ⟨?_, ?_⟩
      · intro x hx
        rcases List.mem_cons.mp ((insertDescBy_perm deg i rest).mem_iff.mp hx) with
          rfl | hx'
        · exact Or.inl hdij
        · exact hj x hx'
      · exact insertDescBy_pairwise deg i rest hrest
          (fun x hx => hlt x (by simp [hx]))

theorem foldr_insertDescBy_perm (deg : Nat → Nat) :
    ∀ l : List Nat, (l.foldr (insertDescBy deg) []).Perm l
  | [] => List.Perm.refl _
  | x :: xs => by
    simp only [List.foldr_cons]
    exact (insertDescBy_perm deg x _).trans
      ((foldr_insertDescBy_perm deg xs).cons x)

theorem argsortDesc_perm (deg : Nat → Nat) (n : Nat) :
    (argsortDesc deg n).Perm (List.range n) :=
  foldr_insertDescBy_perm deg (List.range n)

theorem foldr_insertDescBy_pairwise (deg : Nat → Nat) :
    ∀ l : List Nat, l.Pairwise (· < ·) →
      (l.foldr (insertDescBy deg) []).Pairwise (DegOrder deg)
  | [], _ => List.Pairwise.nil
  | x :: xs, hp => by
    obtain ⟨hx, hxs⟩ := List.pairwise_cons.mp hp
    simp only [List.foldr_cons]
    refine insertDescBy_pairwise deg x _ (foldr_insertDescBy_pairwise deg xs hxs) ?_
    intro j hj
    exact hx j ((foldr_insertDescBy_perm deg xs).mem_iff.mp hj)

theorem argsortDesc_pairwise (deg : Nat → Nat) (n : Nat) :
    (argsortDesc deg n).Pairwise (DegOrder deg) :=
  foldr_insertDescBy_pairwise deg (List.range n) (List.pairwise_lt_range n)

/-! ### Capacity estimation and the placement decision -/

/-- Host store with width-4 rows for every field. -/
def storeC3 : Store := fun _ g => [(g : Int), (g : Int), (g : Int), (g : Int)]

/-- Out-degree function used in the C3 evaluation: node `i` has degree `i`. -/
def degC3 : Nat → Nat := fun i => i

/-- C3 evaluated where the claim and the code part ways: with total memory
equal to the headroom and 64 bytes peak-allocated (so 64 bytes short),
`total_dim = 4`: the capability is computed as -4 — not the claimed
non-negative clamp 0 — and instead of placing nothing, the negative
Python slice `sort_nid[:-4]` caches 6 of the 10 nodes. -/
theorem auto_cache_negative_capability_caches_nodes :
    computeCapability headroomBytes 64 4 = -4 ∧
    max 0 (computeCapability headroomBytes 64 4) = 0 ∧
    ((auto_cache (init_field (initState 10 (fun g => g)) storeC3 ["f"]) storeC3
      degC3 headroomBytes 64 ["f"]).toOption.getD dfltState).capability = -4 ∧
    ((auto_cache (init_field (initState 10 (fun g => g)) storeC3 ["f"]) storeC3
      degC3 headroomBytes 64 ["f"]).toOption.getD dfltState).cached_num = 6 :=
  ⟨by decide, by decide, by decide, by decide⟩

/-- C4 counterexample: a one-node graph whose computed capability equals
`node_num` (both are 1).  The claim predicts the full-cache path with
`fullyCached` true; the code's strict comparison takes the partial path,
leaving `full_cached` false even though the one node does get cached. -/
theorem full_cache_boundary_counterexample :
    ((auto_cache (init_field (initState 1 (fun g => g)) storeA ["f"]) storeA
      (fun _ => 0) (headroomBytes + 4) 0 ["f"]).toOption.getD dfltState).capability
      = 1 ∧
    ((1 : Int) ≥ ((1 : Nat) : Int)) ∧
    ((auto_cache (init_field (initState 1 (fun g => g)) storeA ["f"]) storeA
      (fun _ => 0) (headroomBytes + 4) 0 ["f"]).toOption.getD dfltState).full_cached
      = false ∧
    ((auto_cache (init_field (initState 1 (fun g => g)) storeA ["f"]) storeA
      (fun _ => 0) (headroomBytes + 4) 0 ["f"]).toOption.getD dfltState).cached_num
      = 1 :=
  ⟨by decide, by decide, by decide, by decide⟩

/-- C4 amended: `auto_cache` takes the full-cache path (`fullyCached`
true, all ids selected in ascending order) exactly when the capability
strictly exceeds `node_num`; otherwise `fullyCached` stays false and the
selection is the Python slice `sort_nid[:capability]` of the
degree-descending id order — the top-`capability` ids by out-degree, ties
broken by ascending id, deterministically (the model is a function of its
inputs). -/
theorem auto_cache_placement_characterization
    (s0 : ServerState) (store : Store) (deg : Nat → Nat) (tm pk : Nat)
    (names : List String) (w : String → Nat)
    (hnd : names.Nodup)
    (hdims0 : s0.dims = names.map (fun nm => (nm, w nm)))
    (hcache0 : s0.gpu_fix_cache = [])
    (hflag0 : s0.gpu_flag = fun _ => false) :
    (argsortDesc deg s0.node_num).Perm (List.range s0.node_num) ∧
    (argsortDesc deg s0.node_num).Pairwise (DegOrder deg) ∧
    ∃ s', auto_cache s0 store deg tm pk names = .ok s' ∧
      s'.full_cached
        = decide (computeCapability tm pk s0.total_dim > (s0.node_num : Int)) ∧
      s'.capability = computeCapability tm pk s0.total_dim ∧
      (∀ i, s'.gpu_flag i = true ↔
        i ∈ choose_cache_nids (computeCapability tm pk s0.total_dim) s0.node_num deg) ∧
      s'.cached_num = (choose_cache_nids (computeCapability tm pk s0.total_dim)
        s0.node_num deg).length ∧
      (computeCapability tm pk s0.total_dim > (s0.node_num : Int) →
        choose_cache_nids (computeCapability tm pk s0.total_dim) s0.node_num deg
          = List.range s0.node_num) ∧
      (¬computeCapability tm pk s0.total_dim > (s0.node_num : Int) →
        choose_cache_nids (computeCapability tm pk s0.total_dim) s0.node_num deg
          = pySlice (argsortDesc deg s0.node_num)
              (computeCapability tm pk s0.total_dim)) := by
  refine ⟨argsortDesc_perm deg s0.node_num, argsortDesc_pairwise deg s0.node_num, ?_⟩
  refine ⟨_, auto_cache_state s0 store deg tm pk names w hnd hdims0 hcache0, ?_, ?_, ?_, ?_, ?_, ?_⟩
  · rfl
  · rfl
  · intro i
    show setFlags s0.gpu_flag _ true i = true ↔ _
    rw [hflag0]
    exact setFlags_false_base _ i
  · rfl
  · intro hc
    unfold choose_cache_nids
    rw [if_pos hc]
  · intro hc
    unfold choose_cache_nids
    rw [if_neg hc]

/-- Out-degrees `[3, 0, 5, 1, 2]` over five nodes. -/
def degC4 : Nat → Nat := fun i => [3, 0, 5, 1, 2].getD i 0

/-- Witness for the amended C4: five nodes, capability 2 — the placement
selects `[2, 0]`, the two highest-degree ids, with `full_cached` false. -/
theorem auto_cache_placement_characterization_witness :
    (argsortDesc degC4 5).Perm (List.range 5) ∧
    (argsortDesc degC4 5).Pairwise (DegOrder degC4) ∧
    ∃ s', auto_cache (init_field (initState 5 (fun g => g)) storeA ["f"]) storeA
        degC4 (headroomBytes + 8) 0 ["f"] = .ok s' ∧
      s'.full_cached = decide (computeCapability (headroomBytes + 8) 0
        (init_field (initState 5 (fun g => g)) storeA ["f"]).total_dim
          > ((5 : Nat) : Int)) ∧
      s'.capability = computeCapability (headroomBytes + 8) 0
        (init_field (initState 5 (fun g => g)) storeA ["f"]).total_dim ∧
      (∀ i, s'.gpu_flag i = true ↔
        i ∈ choose_cache_nids (computeCapability (headroomBytes + 8) 0
          (init_field (initState 5 (fun g => g)) storeA ["f"]).total_dim) 5 degC4) ∧
      s'.cached_num = (choose_cache_nids (computeCapability (headroomBytes + 8) 0
        (init_field (initState 5 (fun g => g)) storeA ["f"]).total_dim) 5 degC4).length ∧
      (computeCapability (headroomBytes + 8) 0
          (init_field (initState 5 (fun g => g)) storeA ["f"]).total_dim
            > ((5 : Nat) : Int) →
        choose_cache_nids (computeCapability (headroomBytes + 8) 0
          (init_field (initState 5 (fun g => g)) storeA ["f"]).total_dim) 5 degC4
          = List.range 5) ∧
      (¬computeCapability (headroomBytes + 8) 0
          (init_field (initState 5 (fun g => g)) storeA ["f"]).total_dim
            > ((5 : Nat) : Int) →
        choose_cache_nids (computeCapability (headroomBytes + 8) 0
          (init_field (initState 5 (fun g => g)) storeA ["f"]).total_dim) 5 degC4
          = pySlice (argsortDesc degC4 5) (computeCapability (headroomBytes + 8) 0
              (init_field (initState 5 (fun g => g)) storeA ["f"]).total_dim)) :=
  auto_cache_placement_characterization
    (init_field (initState 5 (fun g => g)) storeA ["f"]) storeA degC4
    (headroomBytes + 8) 0 ["f"] (fun _ => 1) (by decide) (by decide) rfl rfl
